import Mathlib

/-!
Verification of the paginated fetch routine of the `github_issue_comment`
table (`github/table_github_issue_comment.go`).

The table's list function runs a cursor-pagination loop over a GraphQL
client: it builds a fixed variables map, then repeatedly issues a remote
query, streams each returned node to the host, and follows `endCursor`
while `hasNextPage` holds.  Here the remote client is modelled as a list
of pre-arranged responses (one per issued call, as in the spec's mocked
pages), and the host's row budget and cancellation state are modelled
explicitly.  The run records instrumentation: the variables of every call
issued, the records streamed, and the returned (value, error) pair.
-/

namespace GithubIssueComment

/-- An error from the GraphQL client, kept opaque: only its identity and
its textual content (for the not-found policy) matter. -/
abbrev GhError := String

/-- Modelled from the spec: `models.PageInfo` is declared outside the
provided source.  A page carries `hasNextPage` and the `endCursor` to use
for the next fetch. -/
structure PageInfo where
  hasNextPage : Bool
  endCursor : String
deriving Repr, DecidableEq, Inhabited

/-- Modelled from the spec: `models.RateLimit` is declared outside the
provided source.  It is diagnostic data only; the loop logs it and it must
not alter control flow. -/
structure RateLimit where
  remaining : Int
  cost : Int
deriving Repr, DecidableEq, Inhabited

/-- Modelled from the spec: `models.IssueComment` is declared outside the
provided source.  One record: identity, authorship, content, lifecycle
timestamps, visibility/state flags, permission flags and denial reasons. -/
structure IssueComment where
  id : Int
  nodeId : String
  author : String
  authorAssociation : String
  body : String
  bodyText : String
  createdAt : Int
  lastEditedAt : Int
  publishedAt : Int
  updatedAt : Int
  createdViaEmail : Bool
  isMinimized : Bool
  minimizedReason : String
  canDelete : Bool
  canMinimize : Bool
  canReact : Bool
  canUpdate : Bool
  cannotUpdateReasons : List String
deriving Repr, DecidableEq, Inhabited

/-- The `Comments` connection of the query struct: page info, total count
and the page's nodes (lines 68-72 of the source). -/
structure CommentsConnection where
  pageInfo : PageInfo
  totalCount : Int
  nodes : List IssueComment
deriving Repr, DecidableEq, Inhabited

/-- The `Issue` level of the query struct (line 67). -/
structure IssueData where
  comments : CommentsConnection
deriving Repr, DecidableEq, Inhabited

/-- The `Repository` level of the query struct (line 66). -/
structure RepositoryData where
  issue : IssueData
deriving Repr, DecidableEq, Inhabited

/-- The anonymous query struct of lines 64-75: rate-limit data plus the
repository / issue / comments nesting. -/
structure QueryResult where
  rateLimit : RateLimit
  repository : RepositoryData
deriving Repr, DecidableEq, Inhabited

/-- The nodes of one fetched page. -/
def pageNodes (q : QueryResult) : List IssueComment :=
  q.repository.issue.comments.nodes

/-- The variables map built at lines 77-83.  The Go map has these five
fixed keys; only `cursor` is ever reassigned (line 106). -/
structure QueryVariables where
  owner : String
  name : String
  issueNumber : Int
  pageSize : Int
  cursor : Option String
deriving Repr, DecidableEq

/-- The characters before the first slash. -/
def takeUntilSlash : List Char → List Char
  | [] => []
  | c :: rest => if c = '/' then [] else c :: takeUntilSlash rest

/-- The characters after the first slash (empty when there is none). -/
def dropThroughSlash : List Char → List Char
  | [] => []
  | c :: rest => if c = '/' then rest else dropThroughSlash rest

/-- Modelled from the spec: `parseRepoFullName` is declared outside the
provided source.  It splits the repository full name "login/repo-name"
into owner (the segment before the first slash) and repository name (the
segment after it). -/
def parseRepoFullName (fullName : String) : String × String :=
  (String.mk (takeUntilSlash fullName.data),
   String.mk (takeUntilSlash (dropThroughSlash fullName.data)))

/-- Modelled from the spec: `adjustPageSize` is declared outside the
provided source.  The page-size hint is clamped to the configured maximum
and to the requested limit when that is smaller; a requested size of 0 or
negative is clamped to a minimum of 1, never forwarded verbatim. -/
def adjustPageSize (maxSize : Int) (limit : Option Int) : Int :=
  match limit with
  | none => maxSize
  | some l => max 1 (min maxSize l)

/-- Modelled from the spec and the source comment at line 97: the host's
context may be cancelled externally.  Cancellation is modelled by a
threshold on the number of records streamed so far: with
`cancelAt = some k`, the context is cancelled once `k` or more records
have been streamed; `none` means the context is never cancelled. -/
def isCancelled (cancelAt : Option Nat) (rowsStreamed : Nat) : Bool :=
  match cancelAt with
  | none => false
  | some k => decide (k ≤ rowsStreamed)

/-- Modelled from the spec: the host's `RowsRemaining` query, consulted
after every emitted record.  It reports 0 when the context is cancelled
(source comment, line 97), -1 when no limit is set, and otherwise the
limit minus the number of records streamed so far. -/
def rowsRemaining (cancelAt : Option Nat) (limit : Option Int)
    (rowsStreamed : Nat) : Int :=
  if isCancelled cancelAt rowsStreamed then 0
  else
    match limit with
    | none => -1
    | some l => l - rowsStreamed

/-- The inner loop of lines 94-101: stream each node of the page in order
(`d.StreamListItem`), and after each one consult `d.RowsRemaining`; when
it reports 0, return immediately.  Given the count of records streamed so
far, yields the records streamed from this page, the updated count, and
whether the early return was taken. -/
def streamPageNodes (cancelAt : Option Nat) (limit : Option Int) :
    Nat → List IssueComment → List IssueComment × Nat × Bool
  | count, [] => ([], count, false)
  | count, comment :: rest =>
    if rowsRemaining cancelAt limit (count + 1) == 0 then
      ([comment], count + 1, true)
    else
      let r := streamPageNodes cancelAt limit (count + 1) rest
      (comment :: r.1, r.2.1, r.2.2)

/-- Instrumented outcome of one run of the list function: the variables of
each remote call issued in order, the records streamed to the host in
order, and the returned (error, value) pair — `err` is the second return
value and `returnValue` the first (`nil` on every path). -/
structure FetchTrace where
  calls : List QueryVariables
  streamed : List IssueComment
  err : Option GhError
  returnValue : Option (List IssueComment)
deriving Repr, DecidableEq

/-- The `for {}` loop of lines 86-107.  Each iteration issues one remote
call (`client.Query`, modelled by consuming the next pre-arranged
response), logs the rate limit (no effect on state), aborts on error
(lines 89-92), streams the page's nodes with the budget check (lines
94-101), stops when `hasNextPage` is false (lines 103-105), and otherwise
sets `variables["cursor"]` to the page's `endCursor` (line 106) and
repeats.  Returns `none` when the run needs more responses than the
scenario provides. -/
def queryLoop (cancelAt : Option Nat) (limit : Option Int) :
    Nat → QueryVariables → List (Except GhError QueryResult) →
    Option FetchTrace
  | _, _, [] => none
  | count, vars, resp :: rest =>
    match resp with
    | .error e =>
      some { calls := [vars], streamed := [], err := some e,
             returnValue := none }
    | .ok query =>
      let r := streamPageNodes cancelAt limit count
        query.repository.issue.comments.nodes
      if r.2.2 then
        some { calls := [vars], streamed := r.1, err := none,
               returnValue := none }
      else if !query.repository.issue.comments.pageInfo.hasNextPage then
        some { calls := [vars], streamed := r.1, err := none,
               returnValue := none }
      else
        match queryLoop cancelAt limit r.2.1
          { vars with
            cursor := some query.repository.issue.comments.pageInfo.endCursor }
          rest with
        | none => none
        | some t =>
          some { calls := vars :: t.calls, streamed := r.1 ++ t.streamed,
                 err := t.err, returnValue := t.returnValue }

/-- The variables map as first built (lines 77-83): owner and repository
name from the parsed full name, the issue number, the adjusted page size,
and a null cursor. -/
def initialVariables (fullName : String) (issueNumber : Int)
    (limit : Option Int) : QueryVariables :=
  { owner := (parseRepoFullName fullName).1
    name := (parseRepoFullName fullName).2
    issueNumber := issueNumber
    pageSize := adjustPageSize 100 limit
    cursor := none }

/-- `tableGitHubRepositoryIssueCommentList` (lines 56-110): parse the
quals, build the variables, connect, and run the pagination loop.  The
host state (limit and cancellation threshold) and the remote's responses
are explicit parameters. -/
def tableGitHubRepositoryIssueCommentList (cancelAt : Option Nat)
    (fullName : String) (issueNumber : Int) (limit : Option Int)
    (responses : List (Except GhError QueryResult)) : Option FetchTrace :=
  queryLoop cancelAt limit 0 (initialVariables fullName issueNumber limit)
    responses

/-- Whether the second list starts with the first. -/
def listBeginsWith [DecidableEq α] : List α → List α → Bool
  | [], _ => true
  | _ :: _, [] => false
  | p :: ps, c :: cs => p = c && listBeginsWith ps cs

/-- Whether the first list occurs as a contiguous run inside the second. -/
def listOccursIn [DecidableEq α] (pat : List α) : List α → Bool
  | [] => listBeginsWith pat []
  | c :: cs => listBeginsWith pat (c :: cs) || listOccursIn pat cs

/-- Modelled from the spec: the substring test used by `isNotFoundError`
(declared outside the provided source): true when `pat` occurs in `s`. -/
def containsSubstring (s pat : String) : Bool :=
  listOccursIn pat.data s.data

/-- Modelled from the spec: `isNotFoundError` is declared outside the
provided source.  It builds a predicate that holds when the error message
contains any of the given not-found markers. -/
def isNotFoundError (notFoundErrors : List String) : GhError → Bool :=
  fun e => notFoundErrors.any (fun marker => containsSubstring e marker)

/-- The list configuration of the table (lines 47-51): key columns and the
should-ignore-error policy. -/
structure ListConfig where
  keyColumns : List String
  shouldIgnoreError : GhError → Bool

/-- A table declaration: name, description and list configuration
(column schema omitted as pure data mapping). -/
structure Table where
  name : String
  description : String
  list : ListConfig

/-- `tableGitHubIssueComment` (lines 43-54): the `github_issue_comment`
table, whose list config ignores errors matching "404". -/
def tableGitHubIssueComment : Table :=
  { name := "github_issue_comment"
    description :=
      "GitHub Issue Comments are the responses/comments on GitHub Issues."
    list :=
      { keyColumns := ["repository_full_name", "number"]
        shouldIgnoreError := isNotFoundError ["404"] } }

/-- Modelled from the spec: the plugin host applies the table's
should-ignore-error policy to the error returned by the list function; an
ignored error yields the rows streamed so far (an empty result when the
first call failed) instead of a hard error. -/
def hostApplyIgnorePolicy (shouldIgnore : GhError → Bool)
    (t : FetchTrace) : Except GhError (List IssueComment) :=
  match t.err with
  | none => .ok t.streamed
  | some e => if shouldIgnore e then .ok t.streamed else .error e

/-- The nodes of the successfully answered calls among a response list. -/
def okPageNodes (rs : List (Except GhError QueryResult)) :
    List (List IssueComment) :=
  rs.filterMap (fun r =>
    match r with
    | .ok q => some q.repository.issue.comments.nodes
    | .error _ => none)

/-! ### Helper lemmas about the inner streaming loop -/

/-- With no limit and no cancellation, the budget check never fires: the
whole page is streamed. -/
theorem streamPageNodes_unbounded (count : Nat) (ns : List IssueComment) :
    streamPageNodes none none count ns = (ns, count + ns.length, false) := by
  induction ns generalizing count with
  | nil => simp [streamPageNodes]
  | cons c rest ih =>
    simp [streamPageNodes, rowsRemaining, isCancelled, ih]
    omega

/-- The records streamed from a page form an initial segment of the
page's nodes. -/
theorem streamPageNodes_initial_segment (cancelAt : Option Nat)
    (limit : Option Int) (count : Nat) (ns : List IssueComment) :
    ∃ s, ns = (streamPageNodes cancelAt limit count ns).1 ++ s := by
  induction ns generalizing count with
  | nil => exact ⟨[], rfl⟩
  | cons c rest ih =>
    rw [streamPageNodes]
    by_cases h : (rowsRemaining cancelAt limit (count + 1) == 0) = true
    · exact ⟨rest, by simp [h]⟩
    · obtain ⟨s, hs⟩ := ih (count + 1)
      exact ⟨s, by simp [h]; exact hs⟩

/-- When the early return was not taken, the whole page was streamed and
the count advanced by the page's length. -/
theorem streamPageNodes_not_stopped (cancelAt : Option Nat)
    (limit : Option Int) (count : Nat) (ns : List IssueComment)
    (h : (streamPageNodes cancelAt limit count ns).2.2 = false) :
    (streamPageNodes cancelAt limit count ns).1 = ns ∧
    (streamPageNodes cancelAt limit count ns).2.1 = count + ns.length := by
  induction ns generalizing count with
  | nil => simp [streamPageNodes]
  | cons c rest ih =>
    rw [streamPageNodes] at h ⊢
    by_cases hc : (rowsRemaining cancelAt limit (count + 1) == 0) = true
    · simp [hc] at h
    · simp only [hc, Bool.false_eq_true, if_false] at h ⊢
      obtain ⟨h1, h2⟩ := ih (count + 1) h
      simp [h1, h2]
      omega

/-- Behaviour of the streaming loop under a stop threshold `m`: the
rows-remaining check first reports 0 when the count of streamed records
reaches `m` (this covers both a row limit of `m` and cancellation once
`m` records have been streamed).  Starting below the threshold, either
the page fits under it and is fully streamed, or streaming cuts off at
the threshold with the early return taken. -/
theorem streamPageNodes_threshold (cancelAt : Option Nat)
    (limit : Option Int) (m : Nat)
    (h0 : ∀ c, c < m → (rowsRemaining cancelAt limit c == 0) = false)
    (h1 : (rowsRemaining cancelAt limit m == 0) = true) :
    ∀ (ns : List IssueComment) (count : Nat), count < m →
      streamPageNodes cancelAt limit count ns =
        if count + ns.length < m then (ns, count + ns.length, false)
        else (ns.take (m - count), m, true) := by
  intro ns
  induction ns with
  | nil =>
    intro count hc
    simp only [streamPageNodes, List.length_nil, Nat.add_zero]
    rw [if_pos hc]
  | cons c rest ih =>
    intro count hc
    rw [streamPageNodes]
    by_cases hstop : count + 1 = m
    · rw [hstop, h1]
      simp only [if_true]
      have hn : ¬ (count + (c :: rest).length < m) := by simp; omega
      rw [if_neg hn]
      have hmc : m - count = 1 := by omega
      simp [hmc, List.take_succ_cons]
    · have hlt : count + 1 < m := by omega
      rw [h0 (count + 1) hlt]
      simp only [Bool.false_eq_true, if_false]
      rw [ih (count + 1) hlt]
      by_cases h2 : count + 1 + rest.length < m
      · have h3 : count + (c :: rest).length < m := by simp; omega
        rw [if_pos h2, if_pos h3]
        simp
        omega
      · have h3 : ¬ (count + (c :: rest).length < m) := by simp; omega
        rw [if_neg h2, if_neg h3]
        have hmc : m - count = (m - (count + 1)) + 1 := by omega
        simp [hmc, List.take_succ_cons]

/-! ### Helper lemmas about the pagination loop -/

@[simp] theorem pageNodes_def (q : QueryResult) :
    pageNodes q = q.repository.issue.comments.nodes := rfl

@[simp] theorem okPageNodes_nil : okPageNodes [] = [] := rfl

@[simp] theorem okPageNodes_cons_ok (q : QueryResult)
    (rs : List (Except GhError QueryResult)) :
    okPageNodes (.ok q :: rs) =
      q.repository.issue.comments.nodes :: okPageNodes rs := by
  simp [okPageNodes]

@[simp] theorem okPageNodes_cons_error (e : GhError)
    (rs : List (Except GhError QueryResult)) :
    okPageNodes (.error e :: rs) = okPageNodes rs := by
  simp [okPageNodes]

/-- With no limit and no cancellation, after any number of pages that all
report a next page, a failing call ends the loop: the error is returned
as-is, every node of the earlier pages has been streamed, and exactly one
call was made per earlier page plus the failing one. -/
theorem queryLoop_error (e : GhError) :
    ∀ (ps : List QueryResult) (rest : List (Except GhError QueryResult))
      (count : Nat) (vars : QueryVariables),
      (∀ p ∈ ps, p.repository.issue.comments.pageInfo.hasNextPage = true) →
      ∃ cs,
        queryLoop none none count vars (ps.map .ok ++ .error e :: rest) =
          some { calls := cs, streamed := ((ps.map pageNodes)).flatten,
                 err := some e, returnValue := none } ∧
        cs.length = ps.length + 1 := by
  intro ps
  induction ps with
  | nil =>
    intro rest count vars _
    exact ⟨[vars], by simp [queryLoop], rfl⟩
  | cons p ps ih =>
    intro rest count vars hnext
    have hp : p.repository.issue.comments.pageInfo.hasNextPage = true :=
      hnext p (List.mem_cons_self p ps)
    obtain ⟨cs, hcs, hlen⟩ := ih rest
      (count + p.repository.issue.comments.nodes.length)
      { vars with
        cursor := some p.repository.issue.comments.pageInfo.endCursor }
      (fun q hq => hnext q (List.mem_cons_of_mem p hq))
    refine ⟨vars :: cs, ?_, by simp [hlen]⟩
    simp only [List.map_cons, List.cons_append, queryLoop,
      streamPageNodes_unbounded, hp, Bool.not_true, Bool.false_eq_true,
      if_false]
    rw [List.append_eq, hcs]
    simp

/-- Behaviour of the loop under a stop threshold `m` on the streamed-record
count (a row limit of `m`, or cancellation once `m` records streamed).
If the given pages hold at least `m - count` further records and all pages
before the last report a next page, the loop ends by the early return:
it never touches `rest`, issues at most one call per given page, streams
exactly the first `m - count` records, and returns no error. -/
theorem queryLoop_threshold (cancelAt : Option Nat) (limit : Option Int)
    (m : Nat)
    (h0 : ∀ c, c < m → (rowsRemaining cancelAt limit c == 0) = false)
    (h1 : (rowsRemaining cancelAt limit m == 0) = true) :
    ∀ (ps : List QueryResult) (rest : List (Except GhError QueryResult))
      (count : Nat) (vars : QueryVariables),
      count < m → m ≤ count + ((ps.map pageNodes).flatten).length →
      (∀ p ∈ ps.dropLast,
        p.repository.issue.comments.pageInfo.hasNextPage = true) →
      ∃ cs,
        queryLoop cancelAt limit count vars (ps.map .ok ++ rest) =
          some { calls := cs,
                 streamed := ((ps.map pageNodes).flatten).take (m - count),
                 err := none, returnValue := none } ∧
        cs.length ≤ ps.length := by
  intro ps
  induction ps with
  | nil =>
    intro rest count vars hc hm _
    simp at hm
    omega
  | cons p ps ih =>
    intro rest count vars hc hm hnext
    by_cases hfit : count + p.repository.issue.comments.nodes.length < m
    · -- the whole page fits below the threshold; the loop continues
      have hps : ps ≠ [] := by
        intro hnil
        subst hnil
        simp at hm
        omega
      have hp : p.repository.issue.comments.pageInfo.hasNextPage = true := by
        apply hnext
        rw [List.dropLast_cons_of_ne_nil hps]
        exact List.mem_cons_self p _
      obtain ⟨cs, hcs, hlen⟩ := ih rest
        (count + p.repository.issue.comments.nodes.length)
        { vars with
          cursor := some p.repository.issue.comments.pageInfo.endCursor }
        hfit (by simp at hm ⊢; omega)
        (fun q hq => by
          apply hnext
          rw [List.dropLast_cons_of_ne_nil hps]
          exact List.mem_cons_of_mem p hq)
      refine ⟨vars :: cs, ?_, by simp; omega⟩
      simp only [List.map_cons, List.cons_append, queryLoop]
      rw [streamPageNodes_threshold cancelAt limit m h0 h1 _ count hc]
      rw [if_pos hfit]
      simp only [hp, Bool.not_true, Bool.false_eq_true, if_false]
      rw [List.append_eq, hcs]
      simp only [Option.some.injEq, FetchTrace.mk.injEq, true_and,
        and_true, List.flatten_cons, pageNodes_def]
      rw [show m - count =
        p.repository.issue.comments.nodes.length +
          (m - (count + p.repository.issue.comments.nodes.length)) from by
        omega]
      rw [List.take_append]
    · -- the threshold is reached inside this page: early return
      refine ⟨[vars], ?_, by simp⟩
      simp only [List.map_cons, List.cons_append, queryLoop]
      rw [streamPageNodes_threshold cancelAt limit m h0 h1 _ count hc]
      rw [if_neg hfit]
      simp only [if_true, List.flatten_cons, pageNodes_def,
        Option.some.injEq, FetchTrace.mk.injEq, true_and, and_true]
      rw [List.take_append_of_le_length (by omega)]

/-- Frame property of the loop: every call it issues uses variables that
agree with the starting variables on owner, name, issue number and page
size — only the cursor entry is ever reassigned (line 106). -/
theorem queryLoop_frame :
    ∀ (responses : List (Except GhError QueryResult)) (cancelAt : Option Nat)
      (limit : Option Int) (count : Nat) (vars : QueryVariables)
      (t : FetchTrace),
      queryLoop cancelAt limit count vars responses = some t →
      ∀ v ∈ t.calls, v.owner = vars.owner ∧ v.name = vars.name ∧
        v.issueNumber = vars.issueNumber ∧ v.pageSize = vars.pageSize := by
  intro responses
  induction responses with
  | nil =>
    intro _ _ _ _ t h
    simp [queryLoop] at h
  | cons resp rest ih =>
    intro cancelAt limit count vars t h
    cases resp with
    | error e =>
      simp only [queryLoop, Option.some.injEq] at h
      subst h
      intro v hv
      simp at hv
      subst hv
      exact ⟨rfl, rfl, rfl, rfl⟩
    | ok q =>
      simp only [queryLoop] at h
      split at h
      · cases h
        intro v hv
        simp at hv
        subst hv
        exact ⟨rfl, rfl, rfl, rfl⟩
      · split at h
        · cases h
          intro v hv
          simp at hv
          subst hv
          exact ⟨rfl, rfl, rfl, rfl⟩
        · split at h
          · cases h
          · rename_i t' heq
            cases h
            intro v hv
            simp only [List.mem_cons] at hv
            cases hv with
            | inl hv =>
              subst hv
              exact ⟨rfl, rfl, rfl, rfl⟩
            | inr hv =>
              exact ih cancelAt limit _ _ t' heq v hv

/-- On every path the loop's first return value is `nil`: records reach
the caller only through the streaming callback. -/
theorem queryLoop_returnValue :
    ∀ (responses : List (Except GhError QueryResult)) (cancelAt : Option Nat)
      (limit : Option Int) (count : Nat) (vars : QueryVariables)
      (t : FetchTrace),
      queryLoop cancelAt limit count vars responses = some t →
      t.returnValue = none := by
  intro responses
  induction responses with
  | nil =>
    intro _ _ _ _ t h
    simp [queryLoop] at h
  | cons resp rest ih =>
    intro cancelAt limit count vars t h
    cases resp with
    | error e =>
      simp only [queryLoop, Option.some.injEq] at h
      subst h
      rfl
    | ok q =>
      simp only [queryLoop] at h
      split at h
      · cases h; rfl
      · split at h
        · cases h; rfl
        · split at h
          · cases h
          · rename_i t' heq
            cases h
            exact ih cancelAt limit _ _ t' heq

/-- Structure of the streamed sequence: for any completed run, the
records streamed are sandwiched between the concatenated nodes of all
fully-consumed fetched pages and the concatenated nodes of all fetched
pages — i.e. the stream equals the pages' nodes in page order and
intra-page order, cut off inside the last fetched page at most. -/
theorem queryLoop_streamed_structure :
    ∀ (responses : List (Except GhError QueryResult)) (cancelAt : Option Nat)
      (limit : Option Int) (count : Nat) (vars : QueryVariables)
      (t : FetchTrace),
      queryLoop cancelAt limit count vars responses = some t →
      (∃ s₁, t.streamed =
        ((okPageNodes (responses.take t.calls.length)).dropLast).flatten
          ++ s₁) ∧
      (∃ s₂, (okPageNodes (responses.take t.calls.length)).flatten =
        t.streamed ++ s₂) := by
  intro responses
  induction responses with
  | nil =>
    intro _ _ _ _ t h
    simp [queryLoop] at h
  | cons resp rest ih =>
    intro cancelAt limit count vars t h
    cases resp with
    | error e =>
      simp only [queryLoop, Option.some.injEq] at h
      subst h
      exact ⟨⟨[], by simp⟩, ⟨[], by simp⟩⟩
    | ok q =>
      simp only [queryLoop] at h
      split at h
      · -- early return taken inside this page
        cases h
        refine ⟨⟨(streamPageNodes cancelAt limit count
          q.repository.issue.comments.nodes).1, by simp⟩, ?_⟩
        obtain ⟨s, hs⟩ := streamPageNodes_initial_segment cancelAt limit
          count q.repository.issue.comments.nodes
        refine ⟨s, ?_⟩
        simpa using hs
      · rename_i hstop
        have hstop' : (streamPageNodes cancelAt limit count
            q.repository.issue.comments.nodes).2.2 = false := by
          simpa using hstop
        have hall := (streamPageNodes_not_stopped cancelAt limit count
          q.repository.issue.comments.nodes hstop').1
        split at h
        · -- last page: hasNextPage is false
          cases h
          exact ⟨⟨q.repository.issue.comments.nodes, by simp [hall]⟩,
            ⟨[], by simp [hall]⟩⟩
        · split at h
          · cases h
          · rename_i t' heq
            cases h
            obtain ⟨⟨s₁, hs₁⟩, ⟨s₂, hs₂⟩⟩ := ih cancelAt limit _ _ t' heq
            constructor
            · by_cases hnil : okPageNodes (rest.take t'.calls.length) = []
              · refine ⟨q.repository.issue.comments.nodes ++ t'.streamed, ?_⟩
                simp [hall, hnil]
              · refine ⟨s₁, ?_⟩
                simp only [List.length_cons, List.take_succ_cons,
                  okPageNodes_cons_ok]
                rw [List.dropLast_cons_of_ne_nil hnil]
                simp only [List.flatten_cons]
                rw [List.append_assoc, hall, ← hs₁]
            · refine ⟨s₂, ?_⟩
              simp only [List.length_cons, List.take_succ_cons,
                okPageNodes_cons_ok, List.flatten_cons]
              rw [hall, hs₂, List.append_assoc]

/-- The rows-remaining check under a pure row limit `N` first reports 0
when exactly `N` records have been streamed. -/
theorem rowsRemaining_limit_check (N : Nat) :
    (∀ c, c < N → (rowsRemaining none (some (N : Int)) c == 0) = false) ∧
    (rowsRemaining none (some (N : Int)) N == 0) = true := by
  constructor
  · intro c hc
    have h : isCancelled none c = false := rfl
    simp only [rowsRemaining, h, Bool.false_eq_true, if_false,
      beq_eq_false_iff_ne, ne_eq]
    omega
  · have h : isCancelled none N = false := rfl
    simp [rowsRemaining, h]

/-- The rows-remaining check under cancellation at threshold `k` first
reports 0 when exactly `k` records have been streamed. -/
theorem rowsRemaining_cancel_check (k : Nat) :
    (∀ c, c < k → (rowsRemaining (some k) none c == 0) = false) ∧
    (rowsRemaining (some k) none k == 0) = true := by
  constructor
  · intro c hc
    have h : isCancelled (some k) c = false := by
      simp [isCancelled]
      omega
    simp [rowsRemaining, h]
  · have h : isCancelled (some k) k = true := by simp [isCancelled]
    simp [rowsRemaining, h]

/-! ### Concrete sample data for witness scenarios -/

/-- A concrete issue comment used in witness scenarios. -/
def sampleComment : IssueComment :=
  { id := 1, nodeId := "n1", author := "alice", authorAssociation := "OWNER",
    body := "b", bodyText := "b", createdAt := 0, lastEditedAt := 0,
    publishedAt := 0, updatedAt := 0, createdViaEmail := false,
    isMinimized := false, minimizedReason := "", canDelete := true,
    canMinimize := true, canReact := true, canUpdate := true,
    cannotUpdateReasons := [] }

/-- A second, distinct concrete issue comment. -/
def sampleComment2 : IssueComment :=
  { sampleComment with id := 2, nodeId := "n2" }

/-- A concrete query result with the given page info and nodes. -/
def samplePage (hasNext : Bool) (cursor : String)
    (nodes : List IssueComment) : QueryResult :=
  { rateLimit := { remaining := 5000, cost := 1 },
    repository := { issue := { comments :=
      { pageInfo := { hasNextPage := hasNext, endCursor := cursor },
        totalCount := 2, nodes := nodes } } } }

/-- A concrete two-page response sequence. -/
def sampleResponses : List (Except GhError QueryResult) :=
  [Except.ok (samplePage true "c1" [sampleComment]),
   Except.ok (samplePage false "" [sampleComment2])]

/-- The trace of running the fetch over `sampleResponses` with no limit
and no cancellation. -/
def sampleTrace : FetchTrace :=
  { calls := [⟨"o", "r", 1, 100, none⟩, ⟨"o", "r", 1, 100, some "c1"⟩],
    streamed := [sampleComment, sampleComment2], err := none,
    returnValue := none }

/-! ### Claim theorems -/

/-- C1: for every fetch request, the sequence of records passed to the
stream consumer equals the concatenation of the nodes of each fetched
page, in page order and, within each page, in server-returned order, up
to the point of any remote error or consumer-signalled early stop: the
stream extends the full contents of every fully-consumed fetched page and
is itself an initial segment of the concatenation of all fetched pages'
nodes. -/
theorem claim_C1_stream_is_page_concatenation (cancelAt : Option Nat)
    (fullName : String) (issueNumber : Int) (limit : Option Int)
    (responses : List (Except GhError QueryResult)) (t : FetchTrace)
    (h : tableGitHubRepositoryIssueCommentList cancelAt fullName issueNumber
      limit responses = some t) :
    (∃ s₁, t.streamed =
      ((okPageNodes (responses.take t.calls.length)).dropLast).flatten
        ++ s₁) ∧
    (∃ s₂, (okPageNodes (responses.take t.calls.length)).flatten =
      t.streamed ++ s₂) :=
  queryLoop_streamed_structure responses cancelAt limit 0
    (initialVariables fullName issueNumber limit) t h

/-- Witness for C1: the two-page sample run. -/
theorem claim_C1_stream_is_page_concatenation_witness :
    (∃ s₁, sampleTrace.streamed =
      ((okPageNodes (sampleResponses.take sampleTrace.calls.length)
        ).dropLast).flatten ++ s₁) ∧
    (∃ s₂, (okPageNodes (sampleResponses.take sampleTrace.calls.length)
      ).flatten = sampleTrace.streamed ++ s₂) :=
  claim_C1_stream_is_page_concatenation none "o/r" 1 none sampleResponses
    sampleTrace rfl

/-- C2: for a remote collection of exactly two pages, the first with
`hasNextPage = true` and end cursor `c1`, the second with
`hasNextPage = false`, a fetch with unlimited row budget issues exactly
two remote calls — the first with a null cursor, the second with cursor
`c1` verbatim — and emits every record of both pages. -/
theorem claim_C2_two_page_fetch (fullName : String) (issueNumber : Int)
    (rl0 rl1 : RateLimit) (tc0 tc1 : Int) (c1 cLast : String)
    (ns0 ns1 : List IssueComment) :
    tableGitHubRepositoryIssueCommentList none fullName issueNumber none
      [Except.ok { rateLimit := rl0, repository := { issue := { comments :=
         { pageInfo := { hasNextPage := true, endCursor := c1 },
           totalCount := tc0, nodes := ns0 } } } },
       Except.ok { rateLimit := rl1, repository := { issue := { comments :=
         { pageInfo := { hasNextPage := false, endCursor := cLast },
           totalCount := tc1, nodes := ns1 } } } }] =
      some { calls := [initialVariables fullName issueNumber none,
                       { initialVariables fullName issueNumber none with
                         cursor := some c1 }],
             streamed := ns0 ++ ns1, err := none, returnValue := none } ∧
    (initialVariables fullName issueNumber none).cursor = none := by
  refine ⟨?_, rfl⟩
  simp [tableGitHubRepositoryIssueCommentList, queryLoop,
    streamPageNodes_unbounded]

/-- C3: if the remote call for any page fails, the fetch aborts
immediately and returns that error unmodified; all records of the pages
fetched before the failing call have been streamed exactly once each (in
page order), and no remote call is made beyond the failing one: the call
count is the number of earlier pages plus one, whatever responses follow
the error. -/
theorem claim_C3_error_aborts_fetch (fullName : String) (issueNumber : Int)
    (ps : List QueryResult) (e : GhError)
    (rest : List (Except GhError QueryResult))
    (h : ∀ p ∈ ps, p.repository.issue.comments.pageInfo.hasNextPage = true) :
    ∃ cs,
      tableGitHubRepositoryIssueCommentList none fullName issueNumber none
        (ps.map .ok ++ .error e :: rest) =
        some { calls := cs, streamed := (ps.map pageNodes).flatten,
               err := some e, returnValue := none } ∧
      cs.length = ps.length + 1 :=
  queryLoop_error e ps rest 0 (initialVariables fullName issueNumber none) h

/-- Witness for C3: one good page followed by a failing call. -/
theorem claim_C3_error_aborts_fetch_witness :
    ∃ cs,
      tableGitHubRepositoryIssueCommentList none "o/r" 1 none
        ([samplePage true "c1" [sampleComment]].map .ok ++
          .error "boom" :: []) =
        some { calls := cs,
               streamed :=
                 ([samplePage true "c1" [sampleComment]].map
                   pageNodes).flatten,
               err := some "boom", returnValue := none } ∧
      cs.length = [samplePage true "c1" [sampleComment]].length + 1 :=
  claim_C3_error_aborts_fetch "o/r" 1 [samplePage true "c1" [sampleComment]]
    "boom" [] (by
      intro p hp
      simp only [List.mem_singleton] at hp
      subst hp
      rfl)

/-- C4: if the row budget `N ≥ 1` is exhausted at the `N`-th streamed
record, which lies within the given pages, the fetch stops without any
remote call beyond the page containing that record — the responses in
`rest` are never consumed — streams exactly the first `N` records, and
returns without an error: early termination on budget exhaustion is a
normal exit. -/
theorem claim_C4_budget_stop_is_normal_exit (fullName : String)
    (issueNumber : Int) (ps : List QueryResult)
    (rest : List (Except GhError QueryResult)) (N : Nat)
    (h1 : 1 ≤ N) (h2 : N ≤ ((ps.map pageNodes).flatten).length)
    (h3 : ∀ p ∈ ps.dropLast,
      p.repository.issue.comments.pageInfo.hasNextPage = true) :
    ∃ cs,
      tableGitHubRepositoryIssueCommentList none fullName issueNumber
        (some (N : Int)) (ps.map .ok ++ rest) =
        some { calls := cs,
               streamed := ((ps.map pageNodes).flatten).take N,
               err := none, returnValue := none } ∧
      cs.length ≤ ps.length := by
  obtain ⟨hc0, hc1⟩ := rowsRemaining_limit_check N
  obtain ⟨cs, hcs, hlen⟩ := queryLoop_threshold none (some (N : Int)) N
    hc0 hc1 ps rest 0
    (initialVariables fullName issueNumber (some (N : Int)))
    (by omega) (by omega) h3
  exact ⟨cs, by simpa using hcs, hlen⟩

/-- Witness for C4: a budget of one row stops inside the first of two
pages; the second page's response is never consumed. -/
theorem claim_C4_budget_stop_is_normal_exit_witness :
    ∃ cs,
      tableGitHubRepositoryIssueCommentList none "o/r" 1 (some (1 : Int))
        ([samplePage true "c1" [sampleComment, sampleComment2]].map .ok ++
          [Except.ok (samplePage false "" [sampleComment])]) =
        some { calls := cs,
               streamed :=
                 (([samplePage true "c1" [sampleComment, sampleComment2]
                   ].map pageNodes).flatten).take 1,
               err := none, returnValue := none } ∧
      cs.length ≤ [samplePage true "c1" [sampleComment, sampleComment2]
        ].length :=
  claim_C4_budget_stop_is_normal_exit "o/r" 1
    [samplePage true "c1" [sampleComment, sampleComment2]]
    [Except.ok (samplePage false "" [sampleComment])] 1
    (by decide) (by decide) (by simp)

/-- C5: if the first fetched page reports `hasNextPage = false`, the
fetch makes exactly one remote call — whatever responses would follow are
never consumed — and terminates normally, its stream being an initial
segment of that page's nodes. -/
theorem claim_C5_single_page_single_call (cancelAt : Option Nat)
    (fullName : String) (issueNumber : Int) (limit : Option Int)
    (q : QueryResult) (rest : List (Except GhError QueryResult))
    (h : q.repository.issue.comments.pageInfo.hasNextPage = false) :
    ∃ s,
      tableGitHubRepositoryIssueCommentList cancelAt fullName issueNumber
        limit (.ok q :: rest) =
        some { calls := [initialVariables fullName issueNumber limit],
               streamed := s, err := none, returnValue := none } ∧
      ∃ s', q.repository.issue.comments.nodes = s ++ s' := by
  simp only [tableGitHubRepositoryIssueCommentList, queryLoop]
  by_cases hstop : (streamPageNodes cancelAt limit 0
      q.repository.issue.comments.nodes).2.2 = true
  · refine ⟨(streamPageNodes cancelAt limit 0
      q.repository.issue.comments.nodes).1, ?_, ?_⟩
    · rw [if_pos hstop]
    · exact streamPageNodes_initial_segment cancelAt limit 0
        q.repository.issue.comments.nodes
  · have hall := (streamPageNodes_not_stopped cancelAt limit 0
      q.repository.issue.comments.nodes (by simpa using hstop)).1
    refine ⟨q.repository.issue.comments.nodes, ?_, ⟨[], by simp⟩⟩
    rw [if_neg hstop]
    simp [h, hall]

/-- Witness for C5: a single no-next-page response followed by another
response that is never consumed. -/
theorem claim_C5_single_page_single_call_witness :
    ∃ s,
      tableGitHubRepositoryIssueCommentList none "o/r" 1 none
        (.ok (samplePage false "" [sampleComment]) ::
          [Except.error "never"]) =
        some { calls := [initialVariables "o/r" 1 none],
               streamed := s, err := none, returnValue := none } ∧
      ∃ s', (samplePage false "" [sampleComment]
        ).repository.issue.comments.nodes = s ++ s' :=
  claim_C5_single_page_single_call none "o/r" 1 none
    (samplePage false "" [sampleComment]) [Except.error "never"] rfl

/-- C6: for every requested limit, the page size sent to the remote API
is at most the configured maximum of 100 and at least 1, and a requested
size of 0 or negative is never forwarded verbatim. -/
theorem claim_C6_page_size_clamped (limit : Option Int) :
    adjustPageSize 100 limit ≤ 100 ∧ 1 ≤ adjustPageSize 100 limit ∧
    ∀ l : Int, limit = some l → l ≤ 0 → adjustPageSize 100 limit ≠ l := by
  rcases limit with _ | l
  · refine ⟨by simp [adjustPageSize], by simp [adjustPageSize], ?_⟩
    intro l h
    cases h
  · refine ⟨?_, ?_, ?_⟩
    · exact max_le (by norm_num) (min_le_left _ _)
    · exact le_max_left _ _
    · intro l' hl' hneg
      cases hl'
      have hone : (1 : Int) ≤ max 1 (min 100 l) := le_max_left _ _
      intro heq
      simp only [adjustPageSize] at heq
      rw [heq] at hone
      omega

/-- Witness for C6: a requested limit of -5 is clamped, not forwarded. -/
theorem claim_C6_page_size_clamped_witness :
    adjustPageSize 100 (some (-5)) ≤ 100 ∧
    1 ≤ adjustPageSize 100 (some (-5)) ∧
    adjustPageSize 100 (some (-5)) ≠ -5 :=
  ⟨(claim_C6_page_size_clamped (some (-5))).1,
   (claim_C6_page_size_clamped (some (-5))).2.1,
   (claim_C6_page_size_clamped (some (-5))).2.2 (-5) rfl (by decide)⟩

/-- C7 counterexample: the context is cancelled once one record has been
streamed (`isCancelled (some 1) 1 = true`), which the loop observes at
the rows-remaining check between the first and second page fetch of the
two-page sample scenario.  The fetch does terminate promptly without
issuing the second remote call (one entry in `calls`), but it returns
`err = none` — a normal exit — not a cancellation error, contrary to the
claim. -/
theorem claim_C7_cancellation_counterexample :
    isCancelled (some 1) 1 = true ∧
    tableGitHubRepositoryIssueCommentList (some 1) "o/r" 1 none
      sampleResponses =
      some { calls := [⟨"o", "r", 1, 100, none⟩],
             streamed := [sampleComment], err := none,
             returnValue := none } :=
  ⟨rfl, rfl⟩

/-- C7 (amended): cancellation is observed by the loop through the
rows-remaining check made after each streamed record; if the context is
cancelled once the `k`-th record (`k ≥ 1`, lying within the given pages)
has been streamed, the loop terminates promptly without issuing any
remote call beyond the page containing that record — the responses in
`rest` are never consumed — and returns a nil error (the same normal
early-exit as budget exhaustion), not a cancellation error. -/
theorem claim_C7_cancellation_amended (fullName : String)
    (issueNumber : Int) (ps : List QueryResult)
    (rest : List (Except GhError QueryResult)) (k : Nat)
    (h1 : 1 ≤ k) (h2 : k ≤ ((ps.map pageNodes).flatten).length)
    (h3 : ∀ p ∈ ps.dropLast,
      p.repository.issue.comments.pageInfo.hasNextPage = true) :
    ∃ cs,
      tableGitHubRepositoryIssueCommentList (some k) fullName issueNumber
        none (ps.map .ok ++ rest) =
        some { calls := cs,
               streamed := ((ps.map pageNodes).flatten).take k,
               err := none, returnValue := none } ∧
      cs.length ≤ ps.length := by
  obtain ⟨hc0, hc1⟩ := rowsRemaining_cancel_check k
  obtain ⟨cs, hcs, hlen⟩ := queryLoop_threshold (some k) none k hc0 hc1
    ps rest 0 (initialVariables fullName issueNumber none) (by omega)
    (by omega) h3
  exact ⟨cs, by simpa using hcs, hlen⟩

/-- Witness for the amended C7: cancellation after one streamed record
stops inside the first of two pages; the second response is never
consumed and no error is returned. -/
theorem claim_C7_cancellation_amended_witness :
    ∃ cs,
      tableGitHubRepositoryIssueCommentList (some 1) "o/r" 1 none
        ([samplePage true "c1" [sampleComment, sampleComment2]].map .ok ++
          [Except.ok (samplePage false "" [sampleComment])]) =
        some { calls := cs,
               streamed :=
                 (([samplePage true "c1" [sampleComment, sampleComment2]
                   ].map pageNodes).flatten).take 1,
               err := none, returnValue := none } ∧
      cs.length ≤ [samplePage true "c1" [sampleComment, sampleComment2]
        ].length :=
  claim_C7_cancellation_amended "o/r" 1
    [samplePage true "c1" [sampleComment, sampleComment2]]
    [Except.ok (samplePage false "" [sampleComment])] 1
    (by decide) (by decide) (by simp)

/-- C8: when the remote reports a not-found error (message containing
"404") on the first call, the list function streams nothing and returns
the error, and the host — applying the table's should-ignore-error
policy, `isNotFoundError ["404"]` from line 49 — turns it into an empty
result rather than a hard error. -/
theorem claim_C8_not_found_empty_result (cancelAt : Option Nat)
    (fullName : String) (issueNumber : Int) (limit : Option Int)
    (e : GhError) (rest : List (Except GhError QueryResult))
    (h : containsSubstring e "404" = true) :
    ∃ t,
      tableGitHubRepositoryIssueCommentList cancelAt fullName issueNumber
        limit (.error e :: rest) = some t ∧
      t.streamed = [] ∧
      hostApplyIgnorePolicy tableGitHubIssueComment.list.shouldIgnoreError
        t = .ok [] := by
  refine ⟨_, rfl, rfl, ?_⟩
  simp [hostApplyIgnorePolicy, tableGitHubIssueComment, isNotFoundError, h]

/-- Witness for C8: a concrete 404 error on the first call. -/
theorem claim_C8_not_found_empty_result_witness :
    ∃ t,
      tableGitHubRepositoryIssueCommentList none "o/r" 1 none
        (.error "http 404 not found" :: []) = some t ∧
      t.streamed = [] ∧
      hostApplyIgnorePolicy tableGitHubIssueComment.list.shouldIgnoreError
        t = .ok [] :=
  claim_C8_not_found_empty_result none "o/r" 1 none "http 404 not found"
    [] rfl

/-- C9: across all iterations of one request's fetch loop, only the
cursor entry of the variables is ever reassigned: every issued call
carries the initially computed owner, repository name, issue number and
page size. -/
theorem claim_C9_only_cursor_reassigned (cancelAt : Option Nat)
    (fullName : String) (issueNumber : Int) (limit : Option Int)
    (responses : List (Except GhError QueryResult)) (t : FetchTrace)
    (h : tableGitHubRepositoryIssueCommentList cancelAt fullName issueNumber
      limit responses = some t) :
    ∀ v ∈ t.calls,
      v.owner = (parseRepoFullName fullName).1 ∧
      v.name = (parseRepoFullName fullName).2 ∧
      v.issueNumber = issueNumber ∧
      v.pageSize = adjustPageSize 100 limit := by
  intro v hv
  simpa [initialVariables] using
    queryLoop_frame responses cancelAt limit 0
      (initialVariables fullName issueNumber limit) t h v hv

/-- Witness for C9: the second call of the two-page sample run differs
from the initial variables only in its cursor. -/
theorem claim_C9_only_cursor_reassigned_witness :
    (⟨"o", "r", 1, 100, some "c1"⟩ : QueryVariables).owner =
      (parseRepoFullName "o/r").1 ∧
    (⟨"o", "r", 1, 100, some "c1"⟩ : QueryVariables).name =
      (parseRepoFullName "o/r").2 ∧
    (⟨"o", "r", 1, 100, some "c1"⟩ : QueryVariables).issueNumber = 1 ∧
    (⟨"o", "r", 1, 100, some "c1"⟩ : QueryVariables).pageSize =
      adjustPageSize 100 none :=
  claim_C9_only_cursor_reassigned none "o/r" 1 none sampleResponses
    sampleTrace rfl ⟨"o", "r", 1, 100, some "c1"⟩ (by decide)

/-- C10: on every exit path — normal exhaustion, budget-induced early
stop, or remote error — the list function's first return value is nil;
records reach the caller only through the streaming callback. -/
theorem claim_C10_nil_return_value (cancelAt : Option Nat)
    (fullName : String) (issueNumber : Int) (limit : Option Int)
    (responses : List (Except GhError QueryResult)) (t : FetchTrace)
    (h : tableGitHubRepositoryIssueCommentList cancelAt fullName issueNumber
      limit responses = some t) :
    t.returnValue = none :=
  queryLoop_returnValue responses cancelAt limit 0
    (initialVariables fullName issueNumber limit) t h

/-- Witness for C10: the two-page sample run returns a nil value. -/
theorem claim_C10_nil_return_value_witness :
    sampleTrace.returnValue = none :=
  claim_C10_nil_return_value none "o/r" 1 none sampleResponses sampleTrace
    rfl

end GithubIssueComment
